import Mathlib

/-!
Verification development for the Discord 8Queens automation tool
("soundness" repository, TypeScript).

The development shallowly embeds the parts of the code that the checked
properties are about:

* the message classifiers (`DiscordClient.isAccessRestricted`,
  `MessageAnalyzer.checkAccessRestriction`, `MessageAnalyzer.analyze`);
* the account validator (`DiscordClient.validateAccount` together with
  `performInitialValidation`), with the external world (login, guild and
  member fetches, slash-command probes) abstracted into an environment
  record of outcomes;
* the account store operations (`AccountManager`);
* the reply-wait state machine (`waitForBotResponseWithUpdates`),
  modelled as a step function over listener/timer events;
* the interaction-nonce generator (`generateNonce`), with JavaScript's
  32-bit signed bitwise semantics made explicit;
* the command-string tokenizer (`CLIExecutor.parseCommand`);
* the fixed 8-queens solution constants (`GameSolver`);
* the game-API poller (`GameAPIClient.pollUntilComplete` and its callers),
  with each HTTP attempt's outcome abstracted into an input stream.

JavaScript strings are modelled as Lean `String`; `undefined`/`null`
values as `Option`; JS numbers involved in bitwise operations as `Nat`
patterns plus an explicit two's-complement reading; regular expressions
as hand-rolled matchers for the concrete patterns in the source.
-/

set_option maxRecDepth 100000

namespace Soundness

/-! ## String utilities

`leadsWith p l` models "the char list `l` starts with `p`", and
`occursIn p l` models JavaScript's `String.prototype.includes`
(substring search).  `strContains s pat` is the string-level wrapper. -/

def leadsWith : List Char → List Char → Bool
  | [], _ => true
  | _ :: _, [] => false
  | p :: ps, c :: cs => p == c && leadsWith ps cs

def occursIn (pat : List Char) : List Char → Bool
  | [] => leadsWith pat []
  | c :: t => leadsWith pat (c :: t) || occursIn pat t

/-- Model of JavaScript `s.includes(pat)`. -/
def strContains (s pat : String) : Bool :=
  occursIn pat.data s.data

/-- Model of JavaScript `s.includes(pat)` on an optional (possibly
`undefined`) receiver accessed with `?.`: `undefined` short-circuits
to a falsy result. -/
def optContains (s : Option String) (pat : String) : Bool :=
  match s with
  | some str => strContains str pat
  | none => false

/-! ## Message model and classifiers

Shapes of the duck-typed Discord message objects, restricted to the
fields the classifiers read: `message.content`, `message.embeds[i].title`
and `message.embeds[i].fields[j].{name,value}`.  Absent (`undefined`)
fields are `Option.none`; an absent or empty `embeds` array both behave
as "no first embed" in every classifier, so `embeds` is a plain list. -/

structure EmbedField where
  name : Option String
  value : String
  deriving Repr, DecidableEq

structure Embed where
  title : Option String
  fields : Option (List EmbedField)
  deriving Repr, DecidableEq

structure Message where
  content : Option String
  embeds : List Embed
  deriving Repr, DecidableEq

/-- A held role as the (role-id, role-name) pair kept on accounts. -/
structure RoleInfo where
  id : String
  name : String
  deriving Repr, DecidableEq

def firstEmbed (m : Message) : Option Embed :=
  m.embeds.head?

/-- Embedding of `DiscordClient.isAccessRestricted`
(src/services/DiscordClient.ts, lines 504-518): true when the first
embed's title contains "Access Restricted", but ALSO when the plain
content contains either rate-limit phrase. -/
def isAccessRestricted (m : Message) : Bool :=
  (match firstEmbed m with
   | some e => optContains e.title "Access Restricted"
   | none => false)
  ||
  (optContains m.content "too many games recently" ||
   optContains m.content "wait 24 hours")

/-- Embedding of `DiscordClient.isGameRateLimited`
(src/services/DiscordClient.ts, lines 523-530). -/
def isGameRateLimited (m : Message) : Bool :=
  optContains m.content "too many games recently" ||
  optContains m.content "wait 24 hours"

/-! The other lineage's classifier (`MessageAnalyzer` in the utils
module, src/unnamed/part_007). -/

inductive AnalyzerErrorType where
  | RATE_LIMIT
  | BOT_RESTRICTION
  | INVALID_RESPONSE
  deriving Repr, DecidableEq

structure MessageAnalysis where
  isRateLimited : Bool
  isAccessRestricted : Bool
  hasValidResponse : Bool
  errorType : Option AnalyzerErrorType
  requiredRole : Option String
  userRole : Option String
  deriving Repr, DecidableEq

namespace MessageAnalyzer

/-- Embedding of `MessageAnalyzer.checkRateLimit` (part_007, lines 64-67). -/
def checkRateLimit (m : Message) : Bool :=
  optContains m.content "too many games recently" ||
  optContains m.content "wait 24 hours"

/-- Embedding of `MessageAnalyzer.checkAccessRestriction`
(part_007, lines 69-71): only the first embed's title is consulted. -/
def checkAccessRestriction (m : Message) : Bool :=
  match firstEmbed m with
  | some e => optContains e.title "Access Restricted"
  | none => false

/-- Embedding of `MessageAnalyzer.hasValidResponse` (part_007, lines 73-75):
at least one embed, or a non-empty (truthy) content string. -/
def hasValidResponse (m : Message) : Bool :=
  !m.embeds.isEmpty ||
  (match m.content with
   | some c => !(c == "")
   | none => false)

/-- Embedding of `MessageAnalyzer.extractRequiredRole` (part_007,
lines 77-88): find an embed field whose name contains "Required Role"
and pull the text between the first pair of double asterisks out of its
value; fall back to "unknown role".  The bolded-text regex
`\*\*([^*]+)\*\*` is modelled by `matchBoldText`. -/
def matchBoldTextAt : List Char → Option String
  | '*' :: '*' :: rest =>
    let inner := rest.takeWhile (fun c => !(c == '*'))
    if inner.isEmpty then none
    else
      match rest.drop inner.length with
      | '*' :: '*' :: _ => some (String.mk inner)
      | _ => none
  | _ => none

def matchBoldText : List Char → Option String
  | [] => none
  | c :: t =>
    match matchBoldTextAt (c :: t) with
    | some s => some s
    | none => matchBoldText t

def extractRequiredRole (m : Message) : String :=
  match firstEmbed m with
  | some e =>
    match e.fields with
    | some fs =>
      match fs.find? (fun f => optContains f.name "Required Role") with
      | some f =>
        match matchBoldText f.value.data with
        | some role => role
        | none => "unknown role"
      | none => "unknown role"
    | none => "unknown role"
  | none => "unknown role"

/-- Embedding of `MessageAnalyzer.getUserSpecialRole` (part_007,
lines 90-96): first of the caller's roles whose name is in the
hard-coded special-role name set. -/
def getUserSpecialRole (userRoles : List RoleInfo) : String :=
  match userRoles.find? (fun role =>
      ["Echo", "Sigma", "Theta", "Delta", "Omega"].contains role.name) with
  | some role => role.name
  | none => "unknown role"

/-- Embedding of `MessageAnalyzer.analyze` (part_007, lines 38-62). -/
def analyze (m : Message) (userRoles : Option (List RoleInfo)) : MessageAnalysis :=
  let isRateLimited := checkRateLimit m
  let isAccessRestricted := checkAccessRestriction m
  let hasValidResponse := hasValidResponse m
  let errorType : Option AnalyzerErrorType :=
    if isRateLimited then some .RATE_LIMIT
    else if isAccessRestricted then some .BOT_RESTRICTION
    else if !hasValidResponse then some .INVALID_RESPONSE
    else none
  match userRoles with
  | some roles =>
    if isAccessRestricted then
      { isRateLimited, isAccessRestricted, hasValidResponse, errorType
        requiredRole := some (extractRequiredRole m)
        userRole := some (getUserSpecialRole roles) }
    else
      { isRateLimited, isAccessRestricted, hasValidResponse, errorType
        requiredRole := none, userRole := none }
  | none =>
    { isRateLimited, isAccessRestricted, hasValidResponse, errorType
      requiredRole := none, userRole := none }

end MessageAnalyzer

/-! ## Profile statistics extraction

Embedding of `DiscordClient.parseProfileStats` and
`extractNumberFromField` (src/services/DiscordClient.ts, lines 478-499
and 561-567).  The field-name regexes `/games?\s+played/i`, `/wins?/i`,
`/win\s+rate/i`, `/badges?/i` and the bolded-number value regex
`/\*\*(\d+(?:\.\d+)?)\*\*/` are modelled by concrete matchers.
JavaScript numbers coming out of `parseFloat` are modelled as `Rat`. -/

def lowerChars (s : String) : List Char :=
  s.data.map Char.toLower

/-- Search semantics of `regex.test`: the matcher `p` succeeds at some
position of the char list. -/
def scanMatch (p : List Char → Bool) : List Char → Bool
  | [] => p []
  | c :: t => p (c :: t) || scanMatch p t

/-- Matcher for `\s+pat` at the head of a list, where `pat` starts with a
non-whitespace character: at least one whitespace char, then after the
whitespace run `pat` must follow. -/
def wsThen (pat : List Char) (l : List Char) : Bool :=
  match l with
  | [] => false
  | c :: t => c.isWhitespace && leadsWith pat (t.dropWhile Char.isWhitespace)

/-- Matcher for `games?\s+played` anchored at the head (applied to the
lower-cased field name). -/
def gamesPlayedAt (l : List Char) : Bool :=
  leadsWith "game".data l &&
    (wsThen "played".data (l.drop 4) ||
     (match l.drop 4 with
      | 's' :: t => wsThen "played".data t
      | _ => false))

/-- Matcher for `win\s+rate` anchored at the head. -/
def winRateAt (l : List Char) : Bool :=
  leadsWith "win".data l && wsThen "rate".data (l.drop 3)

/-- Model of `/games?\s+played/i.test name`. -/
def testGamesPlayed (name : String) : Bool :=
  scanMatch gamesPlayedAt (lowerChars name)

/-- Model of `/wins?/i.test name`: as a search, the optional `s?` makes
this equivalent to containing "win". -/
def testWins (name : String) : Bool :=
  occursIn "win".data (lowerChars name)

/-- Model of `/win\s+rate/i.test name`. -/
def testWinRate (name : String) : Bool :=
  scanMatch winRateAt (lowerChars name)

/-- Model of `/badges?/i.test name`: equivalent to containing "badge". -/
def testBadges (name : String) : Bool :=
  occursIn "badge".data (lowerChars name)

def digitsToNat (ds : List Char) : Nat :=
  ds.foldl (fun acc c => acc * 10 + (c.toNat - 48)) 0

/-- Value of a decimal numeral `intPart.fracPart` as a rational, the
model of JavaScript `parseFloat` on the capture of
`\*\*(\d+(?:\.\d+)?)\*\*`. -/
def numeralToRat (intPart fracPart : List Char) : Rat :=
  (digitsToNat intPart : Rat) +
    (digitsToNat fracPart : Rat) / ((10 : Rat) ^ fracPart.length)

/-- Matcher for `\*\*(\d+(?:\.\d+)?)\*\*` anchored at the head: two
asterisks, one or more digits, optionally a dot and one or more digits,
two asterisks; yields the parsed number. -/
def matchBoldNumberAt : List Char → Option Rat
  | '*' :: '*' :: rest =>
    let ds := rest.takeWhile Char.isDigit
    if ds.isEmpty then none
    else
      match rest.drop ds.length with
      | '.' :: r2 =>
        let fs := r2.takeWhile Char.isDigit
        if fs.isEmpty then none
        else
          match r2.drop fs.length with
          | '*' :: '*' :: _ => some (numeralToRat ds fs)
          | _ => none
      | '*' :: '*' :: _ => some (numeralToRat ds [])
      | _ => none
  | _ => none

/-- Search for the bolded-number pattern anywhere in the value, the
model of `value.match(/\*\*(\d+(?:\.\d+)?)\*\*/)` plus `parseFloat`. -/
def matchBoldNumber : List Char → Option Rat
  | [] => none
  | c :: t =>
    match matchBoldNumberAt (c :: t) with
    | some q => some q
    | none => matchBoldNumber t

/-- Embedding of `DiscordClient.extractNumberFromField`: find the first
field whose name passes the regex test and extract the bolded number
from its value.  A JS `undefined` field name is coerced by `regex.test`
to the string "undefined", which none of the four patterns matches, so
it is modelled as a failed test. -/
def extractNumberFromField (fields : List EmbedField) (test : String → Bool) : Option Rat :=
  match fields.find? (fun f =>
      match f.name with
      | some n => test n
      | none => false) with
  | some f => matchBoldNumber f.value.data
  | none => none

structure Stats where
  played : Rat
  wins : Rat
  winRate : Rat
  badgesEarned : Rat
  deriving Repr, DecidableEq

def zeroStats : Stats :=
  { played := 0, wins := 0, winRate := 0, badgesEarned := 0 }

/-- Embedding of `DiscordClient.parseProfileStats`
(src/services/DiscordClient.ts, lines 478-499): null when access is
restricted or when there is no first embed titled "Profile"; otherwise
a stats record whose four fields each default to 0 when extraction
fails (`|| 0`). -/
def parseProfileStats (m : Message) : Option Stats :=
  if isAccessRestricted m then none
  else
    match firstEmbed m with
    | some e =>
      if optContains e.title "Profile" then
        let fields := e.fields.getD []
        some
          { played := (extractNumberFromField fields testGamesPlayed).getD 0
            wins := (extractNumberFromField fields testWins).getD 0
            winRate := (extractNumberFromField fields testWinRate).getD 0
            badgesEarned := (extractNumberFromField fields testBadges).getD 0 }
      else none
    | none => none

/-! ## Account data and the validator

`AccountData` mirrors src/types/index.ts.  `validateAccount`
(src/services/DiscordClient.ts, lines 29-184) talks to the external
platform; every external outcome it branches on is abstracted into a
`ValidationEnv` record: whether login succeeded, whether the guild and
member fetches succeeded, the member's roles, the reply of each
`/profile` probe (`none` models the probe throwing after both retry
attempts), and the fallback-channel permission probe. -/

inductive AccountStatus where
  | confirmed
  | pending
  deriving Repr, DecidableEq

inductive ExecChannel where
  | general
  | fallback
  deriving Repr, DecidableEq

structure AccountData where
  id : String
  token : String
  username : String
  globalName : String
  roles : List RoleInfo
  stats : Stats
  status : AccountStatus
  executableChannel : Option ExecChannel
  deriving Repr, DecidableEq

/-- The configuration fields the validator reads
(src/config/environment.ts). -/
structure ValidationConfig where
  REQUIRED_ROLES : List String
  SPECIAL_ROLES : List String
  FALLBACK_CHANNEL_ID : Option String
  deriving Repr, DecidableEq

/-- Outcomes of the external interactions `validateAccount` performs,
in program order. -/
structure ValidationEnv where
  /-- `client.login(token)` raced against the 30s timeout succeeded. -/
  loginOk : Bool
  /-- `client.user` was non-null after login. -/
  userAvailable : Bool
  userId : String
  token : String
  username : String
  /-- `user.globalName`, `undefined` when unset (`|| user.username`). -/
  globalName : Option String
  /-- The guild fetch (10s budget) succeeded. -/
  guildOk : Bool
  /-- The member fetch (10s budget) succeeded. -/
  memberOk : Bool
  /-- `member.roles.cache` as (id, name) pairs. -/
  memberRoles : List RoleInfo
  /-- Reply of the `/profile` probe in the general channel; `none` models
  `executeWithRetry` throwing on both attempts. -/
  generalProbe : Option Message
  /-- `checkFallbackChannelPermission` result. -/
  fallbackPermission : Bool
  /-- Reply of the `/profile` probe in the fallback channel. -/
  fallbackProbe : Option Message
  deriving Repr, DecidableEq

/-- Embedding of `DiscordClient.performInitialValidation`
(src/services/DiscordClient.ts, lines 263-325): guild fetch, member
fetch, then the role gate — ALL configured required roles must be held
and AT LEAST ONE configured special role must be held. -/
def performInitialValidation (cfg : ValidationConfig) (env : ValidationEnv) :
    Option (String × String × String × String × List RoleInfo) :=
  if !env.guildOk then none
  else if !env.memberOk then none
  else
    let userRoles := env.memberRoles.map RoleInfo.id
    let hasRequiredRoles := cfg.REQUIRED_ROLES.all (fun roleId => userRoles.contains roleId)
    let hasSpecialRole := cfg.SPECIAL_ROLES.any (fun roleId => userRoles.contains roleId)
    if !hasRequiredRoles || !hasSpecialRole then none
    else
      some (env.userId, env.token, env.username,
            env.globalName.getD env.username, env.memberRoles)

def mkAccount (base : String × String × String × String × List RoleInfo)
    (stats : Stats) (status : AccountStatus) (chan : Option ExecChannel) :
    AccountData :=
  { id := base.1, token := base.2.1, username := base.2.2.1
    globalName := base.2.2.2.1, roles := base.2.2.2.2
    stats, status, executableChannel := chan }

/-- Embedding of `DiscordClient.validateAccount`
(src/services/DiscordClient.ts, lines 29-184).  Control flow:

* login failure, missing `client.user`, or a failed initial validation
  discard the credential (`none`);
* a general-channel probe reply classified access-restricted, or one
  with parseable profile stats, confirms with channel `general`
  (access-restriction checks happen before stats parsing);
* otherwise the fallback logic runs: no fallback configured or no
  fallback permission keeps the account as `pending` with no channel;
* a fallback probe reply that is access-restricted or stats-parseable
  confirms with channel `fallback`; a probe that throws, or a reply
  that is neither, falls to the final `return null`. -/
def validateAccount (cfg : ValidationConfig) (env : ValidationEnv) :
    Option AccountData :=
  if !env.loginOk then none
  else if !env.userAvailable then none
  else
    match performInitialValidation cfg env with
    | none => none
    | some base =>
      let fallbackPhase : Option AccountData :=
        match cfg.FALLBACK_CHANNEL_ID with
        | none => some (mkAccount base zeroStats .pending none)
        | some _ =>
          if !env.fallbackPermission then
            some (mkAccount base zeroStats .pending none)
          else
            match env.fallbackProbe with
            | none => none
            | some resp =>
              if isAccessRestricted resp then
                some (mkAccount base zeroStats .confirmed (some .fallback))
              else
                match parseProfileStats resp with
                | some stats => some (mkAccount base stats .confirmed (some .fallback))
                | none => none
      match env.generalProbe with
      | none => fallbackPhase
      | some resp =>
        if isAccessRestricted resp then
          some (mkAccount base zeroStats .confirmed (some .general))
        else
          match parseProfileStats resp with
          | some stats => some (mkAccount base stats .confirmed (some .general))
          | none => fallbackPhase

/-! ## Account store operations

Embedding of `AccountManager` (src/services/AccountManager.ts).  The
stored `accounts` array is a `List AccountData`; each operation is the
pure list transformation the method performs on it.  `validateAccountData`
only checks properties that the typed model makes hold by construction
(field presence, status and channel enum membership), so it never throws
here. -/

/-- Embedding of `AccountManager.addOrUpdateAccount` (lines 51-68):
`findIndex` by id, overwrite in place on a hit, push on a miss.  The
source overwrites with the spread `{...existing, ...accountData}`;
since `accountData` carries every field of the record type, the merge
equals `accountData`. -/
def addOrUpdateAccount (accountData : AccountData) :
    List AccountData → List AccountData
  | [] => [accountData]
  | acc :: rest =>
    if acc.id == accountData.id then accountData :: rest
    else acc :: addOrUpdateAccount accountData rest

/-- Embedding of `AccountManager.updateAccountStatus` (lines 73-82):
mutate the status of the first account found with the given id. -/
def updateAccountStatus (accountId : String) (status : AccountStatus) :
    List AccountData → List AccountData
  | [] => []
  | acc :: rest =>
    if acc.id == accountId then { acc with status := status } :: rest
    else acc :: updateAccountStatus accountId status rest

/-- Embedding of `AccountManager.updateAccountStats` (lines 87-106):
mutate the stats of the first account found with the given id. -/
def updateAccountStats (accountId : String) (stats : Stats) :
    List AccountData → List AccountData
  | [] => []
  | acc :: rest =>
    if acc.id == accountId then { acc with stats := stats } :: rest
    else acc :: updateAccountStats accountId stats rest

/-- Embedding of `AccountManager.removeAccount` (lines 111-123):
filter out every account with the given id. -/
def removeAccount (accountId : String) (l : List AccountData) :
    List AccountData :=
  l.filter (fun acc => !(acc.id == accountId))

/-- The store invariant: account ids are unique within the sequence. -/
def idsUnique (l : List AccountData) : Prop :=
  (l.map AccountData.id).Nodup

instance : DecidablePred idsUnique := fun l =>
  inferInstanceAs (Decidable (l.map AccountData.id).Nodup)

/-! ## Reply-wait state machine

Embedding of `DiscordClient.waitForBotResponseWithUpdates`
(src/services/DiscordClient.ts, lines 572-618).  The promise attaches a
`messageCreate` listener, a `messageUpdate` listener and a 30s timer;
`cleanup` detaches all three.  The machine is modelled as a step
function over the events those three callbacks can receive, with state

* `active` — listeners attached and the timer pending (`cleanup` not yet
  run); after `cleanup`, no callback fires, so `step` is the identity;
* `lastMessage` — the `lastMessage` closure variable;
* `resolutions` — the values passed to `resolve`/`reject`, in order
  (the claim of exactly-once resolution is about this list). -/

structure WaitMsg where
  id : String
  channelId : String
  authorId : String
  /-- `message.flags?.bitfield`: `none` models an absent flags object. -/
  flags : Option Nat
  deriving Repr, DecidableEq

inductive WaitEvent where
  | create (message : WaitMsg)
  | update (oldMessage newMessage : WaitMsg)
  | timerFired
  deriving Repr, DecidableEq

inductive WaitOutcome where
  | resolved (message : WaitMsg)
  | rejectedTimeout
  deriving Repr, DecidableEq

structure WaitState where
  active : Bool
  lastMessage : Option WaitMsg
  resolutions : List WaitOutcome
  deriving Repr, DecidableEq

def initialWaitState : WaitState :=
  { active := true, lastMessage := none, resolutions := [] }

/-- `!message.flags?.bitfield` in the resolve condition of the
`messageCreate` handler: truthy when the flags object is absent or the
bitfield is 0. -/
def flagsFalsy : Option Nat → Bool
  | none => true
  | some n => n == 0

/-- One event delivered to the wait machine.  `messageCreate` handler:
a message from the target bot in the target channel is cached as
`lastMessage`; flag-bits 192 keep waiting, flag-bits 64 or falsy flags
resolve (cleanup then resolve).  `messageUpdate` handler: an edit of the
cached message from 192 to 64 resolves with the new message.  The timer
rejects with a timeout.  After any terminal outcome, `active` is false
and every further event is ignored. -/
def waitStep (channelId botId : String) (s : WaitState) (e : WaitEvent) :
    WaitState :=
  if !s.active then s
  else
    match e with
    | .timerFired =>
      { s with active := false
               resolutions := s.resolutions ++ [.rejectedTimeout] }
    | .create message =>
      if message.channelId == channelId && message.authorId == botId then
        let s' := { s with lastMessage := some message }
        if message.flags == some 192 then s'
        else if message.flags == some 64 || flagsFalsy message.flags then
          { s' with active := false
                    resolutions := s.resolutions ++ [.resolved message] }
        else s'
      else s
    | .update oldMessage newMessage =>
      if newMessage.channelId == channelId && newMessage.authorId == botId &&
          (match s.lastMessage with
           | some lm => lm.id == newMessage.id
           | none => false) then
        if oldMessage.flags == some 192 && newMessage.flags == some 64 then
          { s with active := false
                   resolutions := s.resolutions ++ [.resolved newMessage] }
        else s
      else s

/-- Run of the wait machine over a sequence of delivered events. -/
def waitRun (channelId botId : String) (s : WaitState)
    (events : List WaitEvent) : WaitState :=
  events.foldl (waitStep channelId botId) s

/-! ## Interaction nonce

Embedding of `generateNonce` (src/services/DiscordClient.ts, lines
638-642):

  `((timestamp << 22) | (1 << 17) | random).toString()`

with `timestamp = Date.now() - 1420070400000` and
`random = Math.floor(Math.random() * 4096)`.  JavaScript `<<` and `|`
operate on 32-bit two's-complement integers: each operand is reduced
`mod 2^32`, the shift keeps the low 32 bits, and the result is read as
a signed 32-bit value.  The model computes the 32-bit pattern with `Nat`
arithmetic and `Nat.lor`, and reads it back as the signed `Int` whose
decimal digits the nonce string carries. -/

def DISCORD_EPOCH : Nat := 1420070400000

/-- JavaScript `x << 22` as a 32-bit pattern: `ToInt32(x)` keeps the low
32 bits of `x`, the shift keeps the low 32 bits of the result. -/
def jsShl22 (x : Nat) : Nat :=
  (x % 2 ^ 32) * 2 ^ 22 % 2 ^ 32

/-- Reading a 32-bit pattern as a signed two's-complement integer, the
value JavaScript's `toString` renders. -/
def int32OfPattern (p : Nat) : Int :=
  if p < 2 ^ 31 then (p : Int) else (p : Int) - 2 ^ 32

/-- The 32-bit pattern `(timestamp << 22) | (1 << 17) | random`,
with `now` the `Date.now()` value and `random` the 12-bit draw. -/
def noncePattern (now random : Nat) : Nat :=
  (jsShl22 (now - DISCORD_EPOCH) ||| (1 <<< 17)) ||| (random % 4096)

/-- Embedding of `generateNonce`: the nonce string, read as the number
it spells (the value of the JS expression before `toString`). -/
def generateNonce (now random : Nat) : Int :=
  int32OfPattern (noncePattern now random)

/-! ## Command-string tokenizer

Embedding of `CLIExecutor.parseCommand` (src/unnamed/part_005, lines
75-105, identical copy in part_007 lines 127-157): a character scan
with an `inQuotes`/`quoteChar` state; quote characters toggle quoting
and are dropped, unquoted spaces end the current token, and tokens are
pushed trimmed (and only if non-empty after trimming).  The JS empty
`quoteChar = ''` sentinel is modelled as `Option.none`. -/

/-- JavaScript `String.prototype.trim` on a char list: strip whitespace
from both ends. -/
def jsTrim (l : List Char) : List Char :=
  ((l.dropWhile Char.isWhitespace).reverse.dropWhile Char.isWhitespace).reverse

structure ParseState where
  args : List String
  current : List Char
  inQuotes : Bool
  quoteChar : Option Char
  deriving Repr, DecidableEq

def singleQuote : Char := Char.ofNat 39

def parseCommandStep (st : ParseState) (c : Char) : ParseState :=
  if (c == '"' || c == singleQuote) && !st.inQuotes then
    { st with inQuotes := true, quoteChar := some c }
  else if (match st.quoteChar with
           | some q => c == q
           | none => false) && st.inQuotes then
    { st with inQuotes := false, quoteChar := none }
  else if c == ' ' && !st.inQuotes then
    if !(jsTrim st.current).isEmpty then
      { st with args := st.args ++ [String.mk (jsTrim st.current)], current := [] }
    else st
  else
    { st with current := st.current ++ [c] }

def parseCommand (commandString : String) : List String :=
  let st := commandString.data.foldl parseCommandStep
    { args := [], current := [], inQuotes := false, quoteChar := none }
  if !(jsTrim st.current).isEmpty then st.args ++ [String.mk (jsTrim st.current)]
  else st.args

/-! ## Fixed 8-queens solution

Embedding of the `GameSolver` constants: `FIXED_SOLUTION` /
`OPTIMAL_SOLUTION` (the same string in both lineages,
src/services/GameSolver.ts line 7 and src/unnamed/part_001 line 7) and
the 8x8 boolean board (`FIXED_STATS_BASE.solution` /
`SOLUTION_BOARD`). -/

def OPTIMAL_SOLUTION : String := "0113253742506674"

def SOLUTION_BOARD : List (List Bool) :=
  [[false, true, false, false, false, false, false, false],
   [false, false, false, true, false, false, false, false],
   [false, false, false, false, false, true, false, false],
   [false, false, false, false, false, false, false, true],
   [false, false, true, false, false, false, false, false],
   [true, false, false, false, false, false, false, false],
   [false, false, false, false, false, false, true, false],
   [false, false, false, false, true, false, false, false]]

/-- Embedding of `GameSolver.validateSolution` (src/unnamed/part_001,
lines 71-77): the self-check only verifies lengths — the 16-character
solution string, `moves = 8`, 8 board rows of 8 cells each. -/
def validateSolution (solution : String) (moves : Nat)
    (board : List (List Bool)) : Bool :=
  solution.length == 16 && moves == 8 && board.length == 8 &&
    board.all (fun row => row.length == 8)

/-- The (row, column) coordinates of the true cells of a board, row by
row. -/
def queenCells (board : List (List Bool)) : List (Nat × Nat) :=
  (board.enum.map (fun rowPair =>
    (rowPair.2.enum.filterMap (fun cellPair =>
      if cellPair.2 then some (rowPair.1, cellPair.1) else none)))).flatten

/-- The consecutive digit pairs of a solution string:
"0113..." ↦ [(0,1),(1,3),...]. -/
def digitPairs : List Char → List (Nat × Nat)
  | a :: b :: rest => (a.toNat - 48, b.toNat - 48) :: digitPairs rest
  | _ => []

/-! ## Game API poller

Embedding of `GameAPIClient` (src/services/GameAPIClient.ts).  The
poller performs up to 2160 HTTP attempts with a 5000 ms delay after
each; the outcome of the i-th request is abstracted into an input
stream:

* `AttemptInput.response status statusText location body` — the axios
  promise resolved (the instance accepts statuses in [200, 500) and
  follows no redirects; `location` is the `Location` header);
* `AttemptInput.transportError msg` — the axios promise rejected with
  an error whose message is `msg` (network failures, timeouts, and
  5xx statuses, which `validateStatus` turns into rejections whose
  message contains "Request failed with status code ...").

Each attempt also takes `reqDur i` milliseconds of wall time before the
fixed 5000 ms delay, so the clock is modelled, not assumed. -/

inductive PollType where
  | victory
  | cli
  deriving Repr, DecidableEq

inductive AttemptInput where
  | response (status : Nat) (statusText : String) (location : Option String)
      (body : String)
  | transportError (msg : String)
  deriving Repr, DecidableEq

/-- Outcome of processing one attempt inside the `while` loop body:
return a result, let an error propagate out of the loop, or fall
through to the 5s delay and the next attempt. -/
inductive StepOut where
  | ret (result : String)
  | raise (error : String)
  | cont
  deriving Repr, DecidableEq

def isRaise : StepOut → Bool
  | .raise _ => true
  | _ => false

/-- The configured game-backend base URL (src/config/environment.ts
default). -/
def API_BASE_URL : String := "https://fun.soundness.xyz"

/-- Model of `new URL(location, base).href` for the shapes the backend
produces: an absolute URL is taken as is, a root-relative path is
resolved against the configured origin. -/
def resolveURL (base location : String) : String :=
  if leadsWith "http".data location.data then location else base ++ location

structure StatusResult where
  shouldStop : Bool
  error : Option String
  result : Option String
  deriving Repr, DecidableEq

/-- Embedding of `GameAPIClient.handleStatusCode`
(src/services/GameAPIClient.ts, lines 175-198): 404 stops with a
type-specific error, any other status at least 400 stops with
`HTTP <status>: <statusText>`, a 302 with a `Location` header stops
with the header resolved against the base URL as the result. -/
def handleStatusCode (ty : PollType) (status : Nat) (statusText : String)
    (location : Option String) : StatusResult :=
  if status == 404 then
    { shouldStop := true
      error := some (match ty with
        | .victory => "Game not found"
        | .cli => "Victory page not found")
      result := none }
  else if 400 ≤ status then
    { shouldStop := true
      error := some ("HTTP " ++ toString status ++ ": " ++ statusText)
      result := none }
  else if status == 302 then
    match location with
    | some loc =>
      { shouldStop := true, error := none
        result := some (resolveURL API_BASE_URL loc) }
    | none => { shouldStop := false, error := none, result := none }
  else { shouldStop := false, error := none, result := none }

/-- Embedding of `GameAPIClient.handlePollingError` (lines 221-229) as
the predicate "the catch block rethrows": true when the message contains
"not found", "failed" or "HTTP"; other (generic network) errors are
swallowed and the attempt retried. -/
def shouldStopPolling (errorMessage : String) : Bool :=
  strContains errorMessage "not found" ||
  strContains errorMessage "failed" ||
  strContains errorMessage "HTTP"

/-- Embedding of `GameAPIClient.checkFailureStates` (lines 203-207):
throws (returns the error) when the body carries the terminal failure
phrase. -/
def checkFailureStates (html : String) : Option String :=
  if strContains html "Proof generation failed - no blob ID available" then
    some "Proof generation failed - no blob ID available"
  else none

/-- Suffix of `l` after the first occurrence of `pat`; `none` when `pat`
does not occur. -/
def afterFirst (pat : List Char) : List Char → Option (List Char)
  | [] => if pat.isEmpty then some [] else none
  | c :: t =>
    if leadsWith pat (c :: t) then some ((c :: t).drop pat.length)
    else afterFirst pat t

/-- Segment of `l` before the first occurrence of `pat`; `none` when
`pat` does not occur. -/
def beforeFirst (pat : List Char) : List Char → Option (List Char)
  | [] => if pat.isEmpty then some [] else none
  | c :: t =>
    if leadsWith pat (c :: t) then some []
    else (beforeFirst pat t).map (c :: ·)

/-- Model of `.replace(/<\/[^>]*>/g, '')`: drop every closing-tag
segment `</...>`; a `</` with no later `>` matches nothing and is kept.
Fuel-driven so the recursion is structural; the fuel is the list length,
which each step consumes at least one character of. -/
def stripCloseTagsAux : Nat → List Char → List Char
  | 0, _ => []
  | _ + 1, [] => []
  | fuel + 1, '<' :: '/' :: rest =>
    match rest.dropWhile (fun c => !(c == '>')) with
    | _ :: after => stripCloseTagsAux fuel after
    | [] => '<' :: '/' :: stripCloseTagsAux fuel rest
  | fuel + 1, c :: t => c :: stripCloseTagsAux fuel t

def stripCloseTags (l : List Char) : List Char :=
  stripCloseTagsAux l.length l

/-- Model of `.replace(/\s+/g, ' ')`: collapse every whitespace run to a
single space.  Fuel-driven like `stripCloseTagsAux`. -/
def collapseWsAux : Nat → List Char → List Char
  | 0, _ => []
  | _ + 1, [] => []
  | fuel + 1, c :: t =>
    if c.isWhitespace then ' ' :: collapseWsAux fuel (t.dropWhile Char.isWhitespace)
    else c :: collapseWsAux fuel t

def collapseWs (l : List Char) : List Char :=
  collapseWsAux l.length l

/-- Model of JavaScript `.replace(/pat/g, repl)` for a plain non-empty
pattern: replace every (leftmost, non-overlapping) occurrence.
Fuel-driven; each step consumes at least one character. -/
def replaceAllAux (pat repl : List Char) : Nat → List Char → List Char
  | 0, l => l
  | _ + 1, [] => []
  | fuel + 1, c :: t =>
    if leadsWith pat (c :: t) then
      repl ++ replaceAllAux pat repl fuel ((c :: t).drop pat.length)
    else c :: replaceAllAux pat repl fuel t

def replaceAll (pat repl : String) (l : List Char) : List Char :=
  replaceAllAux pat.data repl.data l.length l

/-- The HTML-entity and tag cleaning chain of `extractCLICommand`
(lines 245-252): unescape quot/amp/lt/gt, strip closing tags, collapse
whitespace, trim. -/
def cleanCLICommand (raw : List Char) : String :=
  let s := replaceAll "&quot;" "\"" raw
  let s := replaceAll "&amp;" "&" s
  let s := replaceAll "&lt;" "<" s
  let s := replaceAll "&gt;" ">" s
  String.mk (jsTrim (collapseWs (stripCloseTags s)))

/-- Embedding of `GameAPIClient.extractCLICommand` (lines 234-253).
The regex `/<code[^>]*>(.*?)<\/code>/s` is modelled as: after the first
`<code`, skip to the first `>`, then capture lazily up to the first
`</code>` (the dotall capture may span lines; backtracking to later
`<code` occurrences, which the inputs the backend produces never need,
is not modelled).  The capture must contain "soundness-cli send",
otherwise null; then it is entity-unescaped, closing tags are stripped,
whitespace is collapsed and the ends are trimmed. -/
def extractCLICommand (html : String) : Option String :=
  match afterFirst "<code".data html.data with
  | none => none
  | some rest1 =>
    match rest1.dropWhile (fun c => !(c == '>')) with
    | [] => none
    | _ :: rest2 =>
      match beforeFirst "</code>".data rest2 with
      | none => none
      | some raw =>
        if occursIn "soundness-cli send".data raw then
          some (cleanCLICommand raw)
        else none

/-- Embedding of `processVictoryResponse` (lines 141-147): it only
distinguishes waiting states for logging and never produces a result —
a non-redirect 200 always continues polling. -/
def processResponse (ty : PollType) (html : String) : Option String :=
  match ty with
  | .victory => none
  | .cli => extractCLICommand html

/-- One iteration of the `while` loop body of `pollUntilComplete`
(lines 90-132) on the outcome of its HTTP request:

* a resolved response first goes through `handleStatusCode`; a stop
  with an error is thrown inside the `try`, lands in the `catch`, and
  `handlePollingError` either rethrows it (ending the poll) or swallows
  it; a stop with a result returns it;
* a 200 response is checked for terminal failure phrases (CLI polls
  only; the throw also lands in the `catch`, and its message contains
  "failed", so it always rethrows) and then processed for a result;
* a rejected request goes straight to the `catch`. -/
def attemptStep (ty : PollType) (inp : AttemptInput) : StepOut :=
  match inp with
  | .transportError msg =>
    if shouldStopPolling msg then .raise msg else .cont
  | .response status statusText location body =>
    let sr := handleStatusCode ty status statusText location
    if sr.shouldStop then
      match sr.error with
      | some e => if shouldStopPolling e then .raise e else .cont
      | none =>
        match sr.result with
        | some r => .ret r
        | none => .cont
    else if status == 200 then
      match (if ty == .cli then checkFailureStates body else none) with
      | some e => if shouldStopPolling e then .raise e else .cont
      | none =>
        match processResponse ty body with
        | some r => .ret r
        | none => .cont
    else .cont

inductive PollResult where
  | ok (result : String)
  | err (error : String)
  | timeout (minutes attempts : Nat)
  deriving Repr, DecidableEq

def MAX_ATTEMPTS : Nat := 2160

/-- The `while (attemptCount < maxAttempts)` loop of `pollUntilComplete`,
returning the final outcome together with the number of attempts
performed.  `elapsedMs` models `Date.now() - startTime`; every completed
non-final iteration adds its request duration plus the fixed 5000 ms
delay.  Exhausting the budget throws the timeout error carrying the
elapsed minutes (`getElapsedMinutes`, line 168-170: integer division by
60000) and the attempt budget. -/
def pollAux (ty : PollType) (inputs : Nat → AttemptInput)
    (reqDur : Nat → Nat) : Nat → Nat → Nat → PollResult × Nat
  | elapsedMs, 0, attemptCount =>
    (.timeout (elapsedMs / 60000) MAX_ATTEMPTS, attemptCount)
  | elapsedMs, fuel + 1, attemptCount =>
    match attemptStep ty (inputs attemptCount) with
    | .ret r => (.ok r, attemptCount + 1)
    | .raise e => (.err e, attemptCount + 1)
    | .cont =>
      pollAux ty inputs reqDur
        (elapsedMs + (reqDur attemptCount + 5000)) fuel (attemptCount + 1)

/-- Embedding of `pollUntilComplete` (lines 80-136) over an attempt
input stream. -/
def pollUntilComplete (ty : PollType) (inputs : Nat → AttemptInput)
    (reqDur : Nat → Nat) : PollResult × Nat :=
  pollAux ty inputs reqDur 0 MAX_ATTEMPTS 0

/-- Embedding of `submitGameCompletion` (lines 38-55): a victory-type
poll of the POST to `/api/game_completed` (payload formation is part of
the request, abstracted into the input stream). -/
def submitGameCompletion (inputs : Nat → AttemptInput)
    (reqDur : Nat → Nat) : PollResult × Nat :=
  pollUntilComplete .victory inputs reqDur

/-- Embedding of `pollForCLICommand` (lines 62-75): a CLI-type poll of
the GET of the victory URL's relative path (the path extraction is part
of the request, abstracted into the input stream). -/
def pollForCLICommand (victoryUrl : String) (inputs : Nat → AttemptInput)
    (reqDur : Nat → Nat) : PollResult × Nat :=
  pollUntilComplete .cli inputs reqDur

/-- Total wall time of `n` all-continuing attempts starting at attempt
index `k`: each spends its request duration plus the 5000 ms delay. -/
def elapsedSeg (reqDur : Nat → Nat) : Nat → Nat → Nat
  | _, 0 => 0
  | k, n + 1 => (reqDur k + 5000) + elapsedSeg reqDur (k + 1) n

/-- A bot reply that is only rate-limited: plain text mentioning the
24-hour cool-down, no embeds at all. -/
def rateLimitOnlyMsg : Message :=
  { content := some "You have played too many games recently, please wait 24 hours before starting a new game."
    embeds := [] }

def exStrictCfg : ValidationConfig :=
  { REQUIRED_ROLES := ["111", "222"]
    SPECIAL_ROLES := ["333"]
    FALLBACK_CHANNEL_ID := some "999" }

/-- An environment where everything external succeeds but the member
holds only role 111: required role 222 is missing (and no special role
is held either). -/
def exRolePoorEnv : ValidationEnv :=
  { loginOk := true, userAvailable := true
    userId := "u1", token := "tok1", username := "alice"
    globalName := some "Alice", guildOk := true, memberOk := true
    memberRoles := [{ id := "111", name := "Member" }]
    generalProbe := some { content := some "hi", embeds := [] }
    fallbackPermission := true
    fallbackProbe := some { content := some "hi", embeds := [] } }

def exAccountA : AccountData :=
  { id := "a1", token := "t1", username := "alice", globalName := "Alice"
    roles := [{ id := "111", name := "Member" }]
    stats := zeroStats, status := .pending, executableChannel := none }

def exAccountB : AccountData :=
  { id := "b2", token := "t2", username := "bob", globalName := "Bob"
    roles := [], stats := zeroStats, status := .confirmed
    executableChannel := some .general }

/-- An update for the already-stored id "a1" carrying new data. -/
def exAccountA' : AccountData :=
  { exAccountA with status := .confirmed, executableChannel := some .fallback }

def exLoadingMsg : WaitMsg :=
  { id := "msg1", channelId := "chan1", authorId := "bot1", flags := some 192 }

def exFinalMsg : WaitMsg :=
  { id := "msg1", channelId := "chan1", authorId := "bot1", flags := some 64 }

def zeroDur : Nat → Nat := fun _ => 0

/-- A body carrying the terminal failure phrase. -/
def exFailBody : String :=
  "<h1>Proof generation failed - no blob ID available</h1>"

/-- A poll input stream: a generic network error on attempt 0, then 404
responses. -/
def exPollInputs : Nat → AttemptInput := fun i =>
  if i == 0 then .transportError "read ECONNRESET"
  else .response 404 "Not Found" none ""

/-- A non-redirect 200 body that does carry an anchor link containing
"/r/victory/". -/
def victoryAnchorBody : String :=
  "<a href=\"https://fun.soundness.xyz/r/victory/abc123\">victory page</a>"

def anchorInputs : Nat → AttemptInput := fun _ =>
  .response 200 "OK" none victoryAnchorBody

/-- A first attempt answered by a 302 redirect to the victory page. -/
def redirectInputs : Nat → AttemptInput := fun _ =>
  .response 302 "Found" (some "/r/victory/xyz") ""

/-- A 200 body with no CLI command and no terminal condition. -/
def waitingInputs : Nat → AttemptInput := fun _ =>
  .response 200 "OK" none "still generating"

/-! # Theorems -/

/-- C10: The hardcoded 8-queens constant is genuinely valid: the board
has exactly eight true cells, exactly one in each row and one in each
column, no two cells share a diagonal or an anti-diagonal, and the
cells' (row, column) coordinates are exactly the consecutive digit
pairs of the solution string "0113253742506674" — while the built-in
self-check `validateSolution` only verifies lengths. -/
theorem fixedSolutionGenuinelyValid :
    queenCells SOLUTION_BOARD = digitPairs OPTIMAL_SOLUTION.data
    ∧ (SOLUTION_BOARD.map (fun row => row.count true)).sum = 8
    ∧ (queenCells SOLUTION_BOARD).length = 8
    ∧ ((List.range 8).all (fun r =>
        (queenCells SOLUTION_BOARD).countP (fun p => p.1 == r) == 1)) = true
    ∧ ((List.range 8).all (fun c =>
        (queenCells SOLUTION_BOARD).countP (fun p => p.2 == c) == 1)) = true
    ∧ (queenCells SOLUTION_BOARD).Pairwise (fun p q =>
        p.1 + p.2 ≠ q.1 + q.2 ∧ p.1 + q.2 ≠ q.1 + p.2)
    ∧ validateSolution OPTIMAL_SOLUTION 8 SOLUTION_BOARD = true := by
  decide

/-- C7: The command-string tokenizer maps
`soundness-cli send --key-name="foo bar" --x=1` to exactly the four
tokens `["soundness-cli", "send", "--key-name=foo bar", "--x=1"]`:
quoted spaces stay inside one token, the quote characters are stripped,
and unquoted space runs separate tokens (also checked on a
single-quoted variant). -/
theorem parseCommandTokenizesKeyName :
    parseCommand "soundness-cli send --key-name=\"foo bar\" --x=1" =
      ["soundness-cli", "send", "--key-name=foo bar", "--x=1"]
    ∧ parseCommand "soundness-cli   send --key-name='foo bar' --x=1" =
      ["soundness-cli", "send", "--key-name=foo bar", "--x=1"] := by
  exact ⟨by decide, by decide⟩

/-- C4 counterexample: the claimed equivalence "isAccessRestricted = true
iff the first embed title contains Access Restricted" fails on the
`DiscordClient.isAccessRestricted` helper cited by the claim: on a
message with no embeds whose body mentions "wait 24 hours" it reports
true while the first-embed-title condition is false (and the
`MessageAnalyzer` classifier of the other lineage reports false). -/
theorem isAccessRestrictedNotTitleOnly :
    isAccessRestricted rateLimitOnlyMsg = true
    ∧ rateLimitOnlyMsg.embeds = []
    ∧ MessageAnalyzer.checkAccessRestriction rateLimitOnlyMsg = false
    ∧ (MessageAnalyzer.analyze rateLimitOnlyMsg none).isAccessRestricted = false := by
  refine ⟨by decide, rfl, rfl, by decide⟩

/-- C4 amended: the `MessageAnalyzer` classifier reports
isAccessRestricted = true iff the first embed's title contains
"Access Restricted" — independent of the rate-limit content check — and
the `DiscordClient.isAccessRestricted` helper of the other lineage is
that title check OR-ed with the rate-limit content check
(`isGameRateLimited`), so it also fires on rate-limit text alone. -/
theorem analyzerRestrictionIffEmbedTitle :
    ∀ (m : Message) (userRoles : Option (List RoleInfo)),
      ((MessageAnalyzer.analyze m userRoles).isAccessRestricted = true ↔
        ∃ e t, m.embeds.head? = some e ∧ e.title = some t ∧
          strContains t "Access Restricted" = true)
      ∧ isAccessRestricted m =
          (MessageAnalyzer.checkAccessRestriction m || isGameRateLimited m) := by
  intro m userRoles
  constructor
  · have hfield : (MessageAnalyzer.analyze m userRoles).isAccessRestricted =
        MessageAnalyzer.checkAccessRestriction m := by
      unfold MessageAnalyzer.analyze
      cases userRoles with
      | none => rfl
      | some roles =>
        by_cases h : MessageAnalyzer.checkAccessRestriction m = true <;>
          simp [h]
    rw [hfield]
    unfold MessageAnalyzer.checkAccessRestriction firstEmbed optContains
    cases hEmb : m.embeds.head? with
    | none => simp
    | some e =>
      cases hT : e.title with
      | none => simp [hT]
      | some t => simp [hT]
  · unfold isAccessRestricted isGameRateLimited
      MessageAnalyzer.checkAccessRestriction firstEmbed
    rfl

/-- Closed form of the nonce bit pattern while the shifted timestamp
still fits in 32 bits: for a custom-epoch timestamp `t < 1024` the
pattern is exactly `t * 2^22 + 2^17 + random` (the OR of the three
components, which occupy disjoint bit ranges). -/
theorem noncePattern_closed (t r : Nat) (ht : t < 1024) (hr : r < 4096) :
    noncePattern (DISCORD_EPOCH + t) r = 2 ^ 22 * t + (2 ^ 17 + r) := by
  unfold noncePattern jsShl22 DISCORD_EPOCH
  have h1 : 1420070400000 + t - 1420070400000 = t := by omega
  rw [h1]
  have h2 : t % 2 ^ 32 = t := Nat.mod_eq_of_lt (by omega)
  rw [h2]
  have h3 : t * 2 ^ 22 % 2 ^ 32 = t * 2 ^ 22 :=
    Nat.mod_eq_of_lt (by
      have : t * 2 ^ 22 < 1024 * 2 ^ 22 := by
        exact Nat.mul_lt_mul_of_lt_of_le ht (le_refl _) (by norm_num)
      omega)
  rw [h3]
  have h4 : r % 4096 = r := Nat.mod_eq_of_lt hr
  rw [h4]
  have h5 : (1 : Nat) <<< 17 = 2 ^ 17 := by decide
  rw [h5]
  rw [Nat.lor_assoc]
  have h6 : (2 ^ 17 ||| r) = 2 ^ 17 + r := by
    have := Nat.mul_add_lt_is_or (i := 17) (b := r) (a := 1)
      (by calc r < 4096 := hr
            _ ≤ 2 ^ 17 := by norm_num)
    simpa [Nat.mul_one] using this.symm
  rw [h6]
  have h7 : 2 ^ 17 + r < 2 ^ 22 := by
    have : r < 4096 := hr
    norm_num
    omega
  have := Nat.mul_add_lt_is_or (i := 22) (b := 2 ^ 17 + r) (a := t) h7
  rw [Nat.mul_comm t (2 ^ 22)]
  exact this.symm

/-- C5 counterexample: the nonce is computed with JavaScript's 32-bit
signed shift, so the timestamp component wraps: the call 512 ms after
the custom epoch yields the negative nonce -2147352576, strictly below
the nonce 131072 of the call at the epoch itself, although the
timestamps are non-decreasing (and the shift drops all but
`timestamp mod 1024`, so the timestamp component does not dominate). -/
theorem generateNonceNotMonotone :
    DISCORD_EPOCH ≤ DISCORD_EPOCH + 512
    ∧ generateNonce DISCORD_EPOCH 0 = 131072
    ∧ generateNonce (DISCORD_EPOCH + 512) 0 = -2147352576
    ∧ generateNonce (DISCORD_EPOCH + 512) 0 < generateNonce DISCORD_EPOCH 0 := by
  refine ⟨by omega, by decide, by decide, by decide⟩

/-- C5 amended: because `<<` and `|` are 32-bit operations, only
`timestamp mod 1024` enters the nonce and the numeric value wraps (and
sign-flips) every 1024 ms, so monotonicity fails in general; the
numeric nonce is strictly increasing — the shifted timestamp dominating
the fixed tag and the 12-bit random draw — only for calls at strictly
increasing custom-epoch timestamps that both stay below 512 ms, where
no 32-bit wrap or sign flip occurs. -/
theorem generateNonceMonotoneBeforeWrap :
    ∀ t1 t2 r1 r2 : Nat, t1 < t2 → t2 < 512 → r1 < 4096 → r2 < 4096 →
      generateNonce (DISCORD_EPOCH + t1) r1 <
        generateNonce (DISCORD_EPOCH + t2) r2 := by
  intro t1 t2 r1 r2 h12 h2 hr1 hr2
  unfold generateNonce
  rw [noncePattern_closed t1 r1 (by omega) hr1,
      noncePattern_closed t2 r2 (by omega) hr2]
  have b1 : 2 ^ 22 * t1 + (2 ^ 17 + r1) < 2 ^ 31 := by
    have : t1 < 512 := by omega
    norm_num
    omega
  have b2 : 2 ^ 22 * t2 + (2 ^ 17 + r2) < 2 ^ 31 := by
    norm_num
    omega
  unfold int32OfPattern
  rw [if_pos b1, if_pos b2]
  have : 2 ^ 22 * t1 + (2 ^ 17 + r1) < 2 ^ 22 * t2 + (2 ^ 17 + r2) := by
    norm_num
    omega
  exact_mod_cast this

/-- C5 amended, witness: two calls 1 ms apart inside the safe window,
the first with the largest possible random draw, still increase. -/
theorem generateNonceMonotoneBeforeWrapWitness :
    generateNonce (DISCORD_EPOCH + 0) 4095 < generateNonce (DISCORD_EPOCH + 1) 0 :=
  generateNonceMonotoneBeforeWrap 0 1 4095 0 (by decide) (by decide)
    (by decide) (by decide)

/-- C1: a credential whose account lacks at least one configured
required role, or holds none of the configured special roles, is fully
discarded: `validateAccount` returns null, whatever the outcomes of the
login, the fetches and the channel probes — never a pending or
confirmed account. -/
theorem validateAccountRoleGate :
    ∀ (cfg : ValidationConfig) (env : ValidationEnv),
      ((∃ roleId ∈ cfg.REQUIRED_ROLES,
          roleId ∉ env.memberRoles.map RoleInfo.id) ∨
       (∀ roleId ∈ cfg.SPECIAL_ROLES,
          roleId ∉ env.memberRoles.map RoleInfo.id)) →
      validateAccount cfg env = none := by
  intro cfg env h
  have hp : performInitialValidation cfg env = none := by
    unfold performInitialValidation
    cases hG : env.guildOk with
    | false => simp
    | true =>
      cases hM : env.memberOk with
      | false => simp
      | true =>
        simp
        intro hreq r hr y hy hid
        rcases h with ⟨q, hq, hnot⟩ | hnone
        · obtain ⟨z, hz, hzq⟩ := hreq q hq
          exact hnot (List.mem_map.mpr ⟨z, hz, hzq⟩)
        · exact hnone r hr (List.mem_map.mpr ⟨y, hy, hid⟩)
  unfold validateAccount
  cases env.loginOk with
  | false => simp
  | true =>
    cases env.userAvailable with
    | false => simp
    | true => simp [hp]

/-- C1 witness: the concrete role-poor credential is discarded. -/
theorem validateAccountRoleGateWitness :
    validateAccount exStrictCfg exRolePoorEnv = none :=
  validateAccountRoleGate exStrictCfg exRolePoorEnv
    (Or.inl ⟨"222", by decide, by decide⟩)

/-- Every id occurring after `addOrUpdateAccount` occurred before or is
the id of the inserted account. -/
theorem mem_ids_addOrUpdateAccount (a : AccountData) (l : List AccountData)
    (y : String) (hy : y ∈ (addOrUpdateAccount a l).map AccountData.id) :
    y ∈ l.map AccountData.id ∨ y = a.id := by
  induction l with
  | nil =>
    simp only [addOrUpdateAccount, List.map_cons, List.map_nil,
      List.mem_cons, List.not_mem_nil, or_false] at hy
    exact Or.inr hy
  | cons x rest ih =>
    have hstep : addOrUpdateAccount a (x :: rest) =
        if x.id == a.id then a :: rest
        else x :: addOrUpdateAccount a rest := rfl
    cases hid : x.id == a.id with
    | true =>
      rw [hstep, hid, if_pos rfl, List.map_cons, List.mem_cons] at hy
      rcases hy with hy | hy
      · exact Or.inr hy
      · exact Or.inl (by
          rw [List.map_cons]
          exact List.mem_cons.mpr (Or.inr hy))
    | false =>
      rw [hstep, hid, if_neg Bool.false_ne_true, List.map_cons,
        List.mem_cons] at hy
      rcases hy with hy | hy
      · exact Or.inl (by
          rw [List.map_cons]
          exact List.mem_cons.mpr (Or.inl hy))
      · rcases ih hy with h2 | h2
        · exact Or.inl (by
            rw [List.map_cons]
            exact List.mem_cons.mpr (Or.inr h2))
        · exact Or.inr h2

/-- `addOrUpdateAccount` preserves id-uniqueness. -/
theorem idsUnique_addOrUpdateAccount (a : AccountData) (l : List AccountData)
    (h : idsUnique l) : idsUnique (addOrUpdateAccount a l) := by
  induction l with
  | nil => simp [addOrUpdateAccount, idsUnique]
  | cons x rest ih =>
    unfold idsUnique at h
    rw [List.map_cons, List.nodup_cons] at h
    obtain ⟨hx, hrest⟩ := h
    have hstep : addOrUpdateAccount a (x :: rest) =
        if x.id == a.id then a :: rest
        else x :: addOrUpdateAccount a rest := rfl
    unfold idsUnique
    cases hid : x.id == a.id with
    | true =>
      have hEq : x.id = a.id := by simpa using hid
      rw [hstep, hid, if_pos rfl, List.map_cons, List.nodup_cons]
      exact ⟨by rw [← hEq]; exact hx, hrest⟩
    | false =>
      have hNe : ¬(x.id = a.id) := by simpa using hid
      rw [hstep, hid, if_neg Bool.false_ne_true, List.map_cons,
        List.nodup_cons]
      refine ⟨?_, ih hrest⟩
      intro hmem
      rcases mem_ids_addOrUpdateAccount a rest x.id hmem with hin | hEq
      · exact hx hin
      · exact hNe hEq

/-- `updateAccountStatus` keeps the id sequence unchanged. -/
theorem map_id_updateAccountStatus (i : String) (s : AccountStatus)
    (l : List AccountData) :
    (updateAccountStatus i s l).map AccountData.id = l.map AccountData.id := by
  induction l with
  | nil => rfl
  | cons x rest ih =>
    by_cases hid : x.id == i
    · simp [updateAccountStatus, hid]
    · simp [updateAccountStatus, hid, ih]

/-- `updateAccountStats` keeps the id sequence unchanged. -/
theorem map_id_updateAccountStats (i : String) (st : Stats)
    (l : List AccountData) :
    (updateAccountStats i st l).map AccountData.id = l.map AccountData.id := by
  induction l with
  | nil => rfl
  | cons x rest ih =>
    by_cases hid : x.id == i
    · simp [updateAccountStats, hid]
    · simp [updateAccountStats, hid, ih]

/-- When some stored account already carries the inserted id, the update
happens in place: the id sequence is unchanged (no second entry). -/
theorem map_id_addOrUpdateAccount_mem (a : AccountData) (l : List AccountData)
    (h : ∃ x ∈ l, x.id = a.id) :
    (addOrUpdateAccount a l).map AccountData.id = l.map AccountData.id := by
  induction l with
  | nil => obtain ⟨x, hx, _⟩ := h; exact absurd hx (List.not_mem_nil x)
  | cons x rest ih =>
    by_cases hid : x.id == a.id
    · have hEq : x.id = a.id := by simpa using hid
      simp [addOrUpdateAccount, hid, hEq]
    · have hNe : ¬(x.id = a.id) := by simpa using hid
      obtain ⟨z, hz, hzid⟩ := h
      rcases List.mem_cons.mp hz with rfl | hzrest
      · exact absurd hzid hNe
      · simp [addOrUpdateAccount, hid, ih ⟨z, hzrest, hzid⟩]

/-- C9: from any store whose account ids are unique, every account-store
operation — add-or-update, status update, stats update, removal — leaves
the ids unique; and when an account with the inserted id is already
present, `addOrUpdateAccount` overwrites it in place and never appends a
second entry with that id. -/
theorem accountStoreKeepsIdsUnique :
    ∀ (a : AccountData) (i : String) (s : AccountStatus) (st : Stats)
      (l : List AccountData), idsUnique l →
      idsUnique (addOrUpdateAccount a l)
      ∧ idsUnique (updateAccountStatus i s l)
      ∧ idsUnique (updateAccountStats i st l)
      ∧ idsUnique (removeAccount i l)
      ∧ ((∃ x ∈ l, x.id = a.id) →
          (addOrUpdateAccount a l).map AccountData.id = l.map AccountData.id
          ∧ (addOrUpdateAccount a l).length = l.length) := by
  intro a i s st l h
  refine ⟨idsUnique_addOrUpdateAccount a l h, ?_, ?_, ?_, ?_⟩
  · unfold idsUnique
    rw [map_id_updateAccountStatus]
    exact h
  · unfold idsUnique
    rw [map_id_updateAccountStats]
    exact h
  · unfold idsUnique removeAccount
    exact ((List.filter_sublist l).map AccountData.id).nodup h
  · intro hmem
    have hmap := map_id_addOrUpdateAccount_mem a l hmem
    refine ⟨hmap, ?_⟩
    have := congrArg List.length hmap
    simpa using this

/-- C9 witness: on the concrete two-account store, every operation keeps
ids unique and updating the stored id "a1" changes no id and no length. -/
theorem accountStoreKeepsIdsUniqueWitness :
    idsUnique (addOrUpdateAccount exAccountA' [exAccountA, exAccountB])
    ∧ idsUnique (updateAccountStatus "a1" .confirmed [exAccountA, exAccountB])
    ∧ idsUnique (updateAccountStats "a1" zeroStats [exAccountA, exAccountB])
    ∧ idsUnique (removeAccount "a1" [exAccountA, exAccountB])
    ∧ ((∃ x ∈ [exAccountA, exAccountB], x.id = exAccountA'.id) →
        (addOrUpdateAccount exAccountA' [exAccountA, exAccountB]).map AccountData.id
          = [exAccountA, exAccountB].map AccountData.id
        ∧ (addOrUpdateAccount exAccountA' [exAccountA, exAccountB]).length
          = [exAccountA, exAccountB].length) :=
  accountStoreKeepsIdsUnique exAccountA' "a1" .confirmed zeroStats
    [exAccountA, exAccountB] (by decide)

/-- After `cleanup` (listeners removed, timer cleared) no event changes
the wait state. -/
theorem waitStep_inactive (channelId botId : String) (s : WaitState)
    (e : WaitEvent) (h : s.active = false) :
    waitStep channelId botId s e = s := by
  unfold waitStep
  rw [h]
  rfl

/-- After `cleanup`, a whole event suffix changes nothing. -/
theorem waitRun_inactive (channelId botId : String) (s : WaitState)
    (events : List WaitEvent) (h : s.active = false) :
    waitRun channelId botId s events = s := by
  induction events with
  | nil => rfl
  | cons e rest ih =>
    unfold waitRun at ih ⊢
    rw [List.foldl_cons, waitStep_inactive channelId botId s e h]
    exact ih

/-- C2: when the target bot posts a loading message (flag-bits 192) in
the target channel and that same message is later edited to flag-bits
64, the wait resolves exactly once, with the edited message: whatever
events follow — including the timer firing — the resolution list stays
exactly `[resolved edited]` (so no second resolution and no timeout
rejection), and the machine is inactive (listeners and timer detached)
from the first terminal outcome on. -/
theorem waitResolvesOnceOnLoadingEdit :
    ∀ (channelId botId : String) (m m' : WaitMsg) (rest : List WaitEvent),
      m.channelId = channelId → m.authorId = botId → m.flags = some 192 →
      m'.channelId = channelId → m'.authorId = botId → m'.id = m.id →
      m'.flags = some 64 →
      (waitRun channelId botId initialWaitState
          ([.create m, .update m m'] ++ rest)).resolutions = [.resolved m']
      ∧ (waitRun channelId botId initialWaitState
          ([.create m, .update m m'] ++ rest)).active = false := by
  intro channelId botId m m' rest hmc hma hmf hc ha hid hf
  have s1 : waitStep channelId botId initialWaitState (.create m) =
      { active := true, lastMessage := some m, resolutions := [] } := by
    unfold waitStep initialWaitState
    simp [hmc, hma, hmf]
  have s2 : waitStep channelId botId
      { active := true, lastMessage := some m, resolutions := [] }
      (.update m m') =
      { active := false, lastMessage := some m
        resolutions := [.resolved m'] } := by
    unfold waitStep
    simp [hc, ha, hid, hmf, hf]
  have hrun : waitRun channelId botId initialWaitState
      ([.create m, .update m m'] ++ rest) =
      { active := false, lastMessage := some m
        resolutions := [.resolved m'] } := by
    unfold waitRun
    rw [List.cons_append, List.foldl_cons, s1, List.cons_append,
      List.foldl_cons, s2, List.nil_append]
    exact waitRun_inactive channelId botId _ rest rfl
  rw [hrun]
  exact ⟨rfl, rfl⟩

/-- C2 witness: the concrete loading-then-edit sequence resolves once
with the edited message, and a later timer firing changes nothing. -/
theorem waitResolvesOnceOnLoadingEditWitness :
    (waitRun "chan1" "bot1" initialWaitState
        ([.create exLoadingMsg, .update exLoadingMsg exFinalMsg] ++
          [.timerFired])).resolutions = [.resolved exFinalMsg]
    ∧ (waitRun "chan1" "bot1" initialWaitState
        ([.create exLoadingMsg, .update exLoadingMsg exFinalMsg] ++
          [.timerFired])).active = false :=
  waitResolvesOnceOnLoadingEdit "chan1" "bot1" exLoadingMsg exFinalMsg
    [.timerFired] rfl rfl rfl rfl rfl rfl rfl

/-- A substring match at the head is in particular an occurrence. -/
theorem occursIn_of_leadsWith (pat l : List Char)
    (h : leadsWith pat l = true) : occursIn pat l = true := by
  cases l with
  | nil => exact h
  | cons c t =>
    unfold occursIn
    rw [h]
    rfl

/-- Any string starting with "HTTP " contains "HTTP". -/
theorem strContains_HTTP_head (rest : String) :
    strContains ("HTTP " ++ rest) "HTTP" = true := by
  unfold strContains
  apply occursIn_of_leadsWith
  rw [String.data_append]
  show leadsWith ['H', 'T', 'T', 'P'] (['H', 'T', 'T', 'P', ' '] ++ rest.data) = true
  simp [leadsWith, List.cons_append]

/-- If the first `k` attempts continue and attempt `k` raises, the poll
ends with that error after exactly `k + 1` attempts. -/
theorem pollAux_raise_at (ty : PollType) (inputs : Nat → AttemptInput)
    (reqDur : Nat → Nat) :
    ∀ (k fuel a elapsed : Nat) (e : String),
      (∀ i, i < k → attemptStep ty (inputs (a + i)) = .cont) →
      k < fuel →
      attemptStep ty (inputs (a + k)) = .raise e →
      pollAux ty inputs reqDur elapsed fuel a = (.err e, a + k + 1) := by
  intro k
  induction k with
  | zero =>
    intro fuel a elapsed e _ hk hstep
    cases fuel with
    | zero => omega
    | succ f =>
      rw [Nat.add_zero] at hstep
      simp only [pollAux, hstep, Nat.add_zero]
  | succ k ih =>
    intro fuel a elapsed e hpre hk hstep
    cases fuel with
    | zero => omega
    | succ f =>
      have h0 : attemptStep ty (inputs a) = .cont := by
        have := hpre 0 (by omega)
        rwa [Nat.add_zero] at this
      simp only [pollAux, h0]
      have hrec := ih f (a + 1) (elapsed + (reqDur a + 5000)) e
        (fun i hi => by
          have := hpre (i + 1) (by omega)
          rwa [show a + (i + 1) = a + 1 + i by omega] at this)
        (by omega)
        (by rwa [show a + 1 + k = a + (k + 1) by omega])
      rw [hrec]
      simp only [Prod.mk.injEq]
      exact ⟨trivial, by omega⟩

/-- If the first `k` attempts continue and attempt `k` returns a result,
the poll succeeds with it after exactly `k + 1` attempts. -/
theorem pollAux_ret_at (ty : PollType) (inputs : Nat → AttemptInput)
    (reqDur : Nat → Nat) :
    ∀ (k fuel a elapsed : Nat) (r : String),
      (∀ i, i < k → attemptStep ty (inputs (a + i)) = .cont) →
      k < fuel →
      attemptStep ty (inputs (a + k)) = .ret r →
      pollAux ty inputs reqDur elapsed fuel a = (.ok r, a + k + 1) := by
  intro k
  induction k with
  | zero =>
    intro fuel a elapsed r _ hk hstep
    cases fuel with
    | zero => omega
    | succ f =>
      rw [Nat.add_zero] at hstep
      simp only [pollAux, hstep, Nat.add_zero]
  | succ k ih =>
    intro fuel a elapsed r hpre hk hstep
    cases fuel with
    | zero => omega
    | succ f =>
      have h0 : attemptStep ty (inputs a) = .cont := by
        have := hpre 0 (by omega)
        rwa [Nat.add_zero] at this
      simp only [pollAux, h0]
      have hrec := ih f (a + 1) (elapsed + (reqDur a + 5000)) r
        (fun i hi => by
          have := hpre (i + 1) (by omega)
          rwa [show a + (i + 1) = a + 1 + i by omega] at this)
        (by omega)
        (by rwa [show a + 1 + k = a + (k + 1) by omega])
      rw [hrec]
      simp only [Prod.mk.injEq]
      exact ⟨trivial, by omega⟩

/-- If every attempt in the budget continues, the poll times out,
carrying the elapsed minutes and the attempt budget, after consuming
the whole budget. -/
theorem pollAux_all_cont (ty : PollType) (inputs : Nat → AttemptInput)
    (reqDur : Nat → Nat) :
    ∀ (fuel a elapsed : Nat),
      (∀ i, i < fuel → attemptStep ty (inputs (a + i)) = .cont) →
      pollAux ty inputs reqDur elapsed fuel a =
        (.timeout ((elapsed + elapsedSeg reqDur a fuel) / 60000) MAX_ATTEMPTS,
         a + fuel) := by
  intro fuel
  induction fuel with
  | zero =>
    intro a elapsed _
    simp [pollAux, elapsedSeg]
  | succ f ih =>
    intro a elapsed hall
    have h0 : attemptStep ty (inputs a) = .cont := by
      have := hall 0 (by omega)
      rwa [Nat.add_zero] at this
    simp only [pollAux, h0]
    rw [ih (a + 1) (elapsed + (reqDur a + 5000)) (fun i hi => by
      have := hall (i + 1) (by omega)
      rwa [show a + (i + 1) = a + 1 + i by omega] at this)]
    simp only [Prod.mk.injEq]
    constructor
    · congr 1
      have hseg : elapsedSeg reqDur a (f + 1) =
          (reqDur a + 5000) + elapsedSeg reqDur (a + 1) f := rfl
      omega
    · omega

/-- The poll never performs more attempts than its remaining budget. -/
theorem pollAux_attempts_le (ty : PollType) (inputs : Nat → AttemptInput)
    (reqDur : Nat → Nat) :
    ∀ (fuel a elapsed : Nat),
      (pollAux ty inputs reqDur elapsed fuel a).2 ≤ a + fuel := by
  intro fuel
  induction fuel with
  | zero =>
    intro a elapsed
    simp [pollAux]
  | succ f ih =>
    intro a elapsed
    simp only [pollAux]
    cases h : attemptStep ty (inputs a) with
    | ret r => simp only; omega
    | raise e => simp only; omega
    | cont =>
      have := ih (a + 1) (elapsed + (reqDur a + 5000))
      simp only
      omega

theorem elapsedSeg_zeroDur : ∀ (n a : Nat), elapsedSeg zeroDur a n = 5000 * n := by
  intro n
  induction n with
  | zero => intro a; rfl
  | succ m ih =>
    intro a
    have : elapsedSeg zeroDur a (m + 1) =
        (zeroDur a + 5000) + elapsedSeg zeroDur (a + 1) m := rfl
    rw [this, ih (a + 1)]
    simp [zeroDur]
    ring

theorem elapsedSeg_lower (reqDur : Nat → Nat) :
    ∀ (n a : Nat), 5000 * n ≤ elapsedSeg reqDur a n := by
  intro n
  induction n with
  | zero => intro a; simp [elapsedSeg]
  | succ m ih =>
    intro a
    have : elapsedSeg reqDur a (m + 1) =
        (reqDur a + 5000) + elapsedSeg reqDur (a + 1) m := rfl
    rw [this]
    have := ih (a + 1)
    omega

/-- A 404 response stops with the type-specific not-found error, which
the catch block rethrows. -/
theorem attemptStep_404 (ty : PollType) (st : String) (loc : Option String)
    (body : String) :
    attemptStep ty (.response 404 st loc body) =
      .raise (match ty with
        | .victory => "Game not found"
        | .cli => "Victory page not found") := by
  cases ty <;> rfl

theorem handleStatusCode_ge400 (ty : PollType) (status : Nat)
    (st : String) (loc : Option String) (h404 : status ≠ 404)
    (h400 : 400 ≤ status) :
    handleStatusCode ty status st loc =
      { shouldStop := true
        error := some ("HTTP " ++ toString status ++ ": " ++ st)
        result := none } := by
  unfold handleStatusCode
  rw [if_neg (by simp [h404]), if_pos h400]

/-- The "HTTP <status>: <statusText>" stop error always carries the
"HTTP" marker, so the catch block rethrows it. -/
theorem shouldStopPolling_http (status : Nat) (st : String) :
    shouldStopPolling ("HTTP " ++ toString status ++ ": " ++ st) = true := by
  unfold shouldStopPolling
  rw [String.append_assoc, String.append_assoc, strContains_HTTP_head]
  simp

/-- A non-404 response with status at least 400 makes the attempt raise
the HTTP error. -/
theorem attemptStep_ge400 (ty : PollType) (status : Nat) (st : String)
    (loc : Option String) (body : String) (h404 : status ≠ 404)
    (h400 : 400 ≤ status) :
    attemptStep ty (.response status st loc body) =
      .raise ("HTTP " ++ toString status ++ ": " ++ st) := by
  unfold attemptStep
  simp [handleStatusCode_ge400 ty status st loc h404 h400,
    shouldStopPolling_http status st]

/-- C3: for every polling attempt, including the first, a resolved
response with status 404 — or any other status of at least 400 (5xx
statuses rejected by the axios validator surface as transport errors
whose message contains "failed" and are covered by the same raise
path) — makes the attempt raise; a 200 response whose body carries the
terminal failure phrase raises it; a generic transport error whose
message carries none of the stop markers continues; and once some
attempt raises after a run of continuing attempts, the poll ends with
that error having performed no further attempts. -/
theorem pollerAbortsOnErrorsRetriesNetwork :
    ∀ (ty : PollType) (status : Nat) (statusText body msg : String)
      (location : Option String) (inputs : Nat → AttemptInput)
      (reqDur : Nat → Nat) (k : Nat) (e : String),
      (400 ≤ status →
        isRaise (attemptStep ty (.response status statusText location body)) =
          true)
      ∧ (strContains body "Proof generation failed - no blob ID available" =
          true →
          attemptStep .cli (.response 200 statusText location body) =
            .raise "Proof generation failed - no blob ID available")
      ∧ (strContains msg "not found" = false →
          strContains msg "failed" = false →
          strContains msg "HTTP" = false →
          attemptStep ty (.transportError msg) = .cont)
      ∧ ((∀ i, i < k → attemptStep ty (inputs i) = .cont) →
          k < MAX_ATTEMPTS →
          attemptStep ty (inputs k) = .raise e →
          pollUntilComplete ty inputs reqDur = (.err e, k + 1)) := by
  intro ty status statusText body msg location inputs reqDur k e
  refine ⟨?_, ?_, ?_, ?_⟩
  · intro h400
    by_cases h404 : status = 404
    · subst h404
      rw [attemptStep_404]
      rfl
    · rw [attemptStep_ge400 ty status statusText location body h404 h400]
      rfl
  · intro hbody
    have hfail : shouldStopPolling
        "Proof generation failed - no blob ID available" = true := by decide
    simp [attemptStep, handleStatusCode, checkFailureStates, hbody, hfail]
  · intro h1 h2 h3
    simp [attemptStep, shouldStopPolling, h1, h2, h3]
  · intro hpre hk hstep
    unfold pollUntilComplete
    have := pollAux_raise_at ty inputs reqDur k MAX_ATTEMPTS 0 0 e
      (fun i hi => by simpa using hpre i hi) hk (by simpa using hstep)
    simpa using this

/-- C3 witness: attempt 0's network error is swallowed, attempt 1's 404
raises and ends the poll after exactly 2 attempts; a 200 with the
failure phrase raises it too. -/
theorem pollerAbortsOnErrorsRetriesNetworkWitness :
    isRaise (attemptStep .cli (.response 404 "Not Found" none "")) = true
    ∧ attemptStep .cli (.response 200 "OK" none exFailBody) =
        .raise "Proof generation failed - no blob ID available"
    ∧ attemptStep .cli (.transportError "read ECONNRESET") = .cont
    ∧ pollUntilComplete .cli exPollInputs zeroDur =
        (.err "Victory page not found", 2) := by
  refine ⟨?_, ?_, ?_, ?_⟩
  · exact (pollerAbortsOnErrorsRetriesNetwork .cli 404 "Not Found" "" ""
      none exPollInputs zeroDur 0 "").1 (by decide)
  · exact (pollerAbortsOnErrorsRetriesNetwork .cli 200 "OK" exFailBody ""
      none exPollInputs zeroDur 0 "").2.1 (by decide)
  · exact (pollerAbortsOnErrorsRetriesNetwork .cli 0 "" "" "read ECONNRESET"
      none exPollInputs zeroDur 0 "").2.2.1 (by decide) (by decide) (by decide)
  · exact (pollerAbortsOnErrorsRetriesNetwork .cli 0 "" "" "" none
      exPollInputs zeroDur 1 "Victory page not found").2.2.2
      (fun i hi => by
        have hi0 : i = 0 := by omega
        subst hi0
        decide)
      (by decide)
      (by decide)

/-- C6 amended: `submitGameCompletion` returns the redirect response's
`Location` header resolved against the configured base URL as the
immediate result; a non-redirect 200 response never yields a victory
URL — the victory poller extracts nothing from a 200 body (there is no
anchor-link scan) and simply continues polling. -/
theorem submitUsesRedirectLocationOnly :
    ∀ (inputs : Nat → AttemptInput) (reqDur : Nat → Nat) (k : Nat)
      (statusText loc body : String),
      ((∀ i, i < k → attemptStep .victory (inputs i) = .cont) →
        k < MAX_ATTEMPTS →
        inputs k = .response 302 statusText (some loc) body →
        submitGameCompletion inputs reqDur =
          (.ok (resolveURL API_BASE_URL loc), k + 1))
      ∧ (∀ (st2 : String) (loc2 : Option String) (body2 : String),
          attemptStep .victory (.response 200 st2 loc2 body2) = .cont) := by
  intro inputs reqDur k statusText loc body
  constructor
  · intro hpre hk hinp
    unfold submitGameCompletion pollUntilComplete
    have hstep : attemptStep .victory (inputs k) =
        .ret (resolveURL API_BASE_URL loc) := by
      rw [hinp]
      rfl
    have := pollAux_ret_at .victory inputs reqDur k MAX_ATTEMPTS 0 0
      (resolveURL API_BASE_URL loc)
      (fun i hi => by simpa using hpre i hi) hk (by simpa using hstep)
    simpa using this
  · intro st2 loc2 body2
    rfl

/-- C6 counterexample: fed nothing but 200 responses whose body contains
a "/r/victory/" anchor link, `submitGameCompletion` never produces a
victory URL — it polls its whole budget and times out, refuting the
claimed body-scanning fallback. -/
theorem submitIgnoresVictoryAnchorBody :
    strContains victoryAnchorBody "/r/victory/" = true
    ∧ submitGameCompletion anchorInputs zeroDur =
        (.timeout 180 MAX_ATTEMPTS, MAX_ATTEMPTS) := by
  have hrun : submitGameCompletion anchorInputs zeroDur =
      (.timeout 180 MAX_ATTEMPTS, MAX_ATTEMPTS) := by
    unfold submitGameCompletion pollUntilComplete
    have := pollAux_all_cont .victory anchorInputs zeroDur MAX_ATTEMPTS 0 0
      (fun i _ => rfl)
    rw [this, elapsedSeg_zeroDur]
    norm_num [MAX_ATTEMPTS]
  exact ⟨by decide, hrun⟩

/-- C6 amended, witness: on an immediate redirect, the submission
returns the Location header resolved against the base URL after one
attempt; and the concrete still-waiting 200 attempt continues. -/
theorem submitUsesRedirectLocationOnlyWitness :
    submitGameCompletion redirectInputs zeroDur =
      (.ok "https://fun.soundness.xyz/r/victory/xyz", 1)
    ∧ attemptStep .victory
        (.response 200 "OK" none victoryAnchorBody) = .cont := by
  have h := submitUsesRedirectLocationOnly redirectInputs zeroDur 0
    "Found" "/r/victory/xyz" ""
  refine ⟨?_, h.2 "OK" none victoryAnchorBody⟩
  have h1 := h.1 (fun i hi => absurd hi (Nat.not_lt_zero i)) (by decide) rfl
  rw [h1]
  rfl

/-- C8: for every victory URL, `pollForCLICommand` performs at most
2160 attempts (each followed by the fixed 5000 ms delay), and when no
attempt produces a CLI command or a terminal condition, it ends with
the timeout error carrying the elapsed minutes — at least 180, about
3 hours — and the attempt count 2160. -/
theorem pollForCLICommandBudget :
    ∀ (victoryUrl : String) (inputs : Nat → AttemptInput)
      (reqDur : Nat → Nat),
      (pollForCLICommand victoryUrl inputs reqDur).2 ≤ MAX_ATTEMPTS
      ∧ ((∀ i, i < MAX_ATTEMPTS → attemptStep .cli (inputs i) = .cont) →
          pollForCLICommand victoryUrl inputs reqDur =
            (.timeout (elapsedSeg reqDur 0 MAX_ATTEMPTS / 60000) MAX_ATTEMPTS,
             MAX_ATTEMPTS)
          ∧ 180 ≤ elapsedSeg reqDur 0 MAX_ATTEMPTS / 60000) := by
  intro victoryUrl inputs reqDur
  constructor
  · have := pollAux_attempts_le .cli inputs reqDur MAX_ATTEMPTS 0 0
    simpa [pollForCLICommand, pollUntilComplete] using this
  · intro hall
    constructor
    · unfold pollForCLICommand pollUntilComplete
      have := pollAux_all_cont .cli inputs reqDur MAX_ATTEMPTS 0 0
        (fun i hi => by simpa using hall i hi)
      simpa using this
    · have hlow := elapsedSeg_lower reqDur MAX_ATTEMPTS 0
      have h180 : (180 : Nat) = 5000 * MAX_ATTEMPTS / 60000 := by
        norm_num [MAX_ATTEMPTS]
      rw [h180]
      exact Nat.div_le_div_right hlow

/-- C8 witness: on an endless stream of still-generating 200 responses,
the CLI poll stops after exactly 2160 attempts with the timeout error
carrying 180 elapsed minutes and the attempt count. -/
theorem pollForCLICommandBudgetWitness :
    (pollForCLICommand "https://fun.soundness.xyz/r/victory/abc"
        waitingInputs zeroDur).2 ≤ MAX_ATTEMPTS
    ∧ pollForCLICommand "https://fun.soundness.xyz/r/victory/abc"
        waitingInputs zeroDur =
        (.timeout 180 MAX_ATTEMPTS, MAX_ATTEMPTS) := by
  have h := pollForCLICommandBudget "https://fun.soundness.xyz/r/victory/abc"
    waitingInputs zeroDur
  refine ⟨h.1, ?_⟩
  have h2 := (h.2 (fun i _ => rfl)).1
  rw [h2, elapsedSeg_zeroDur]
  norm_num [MAX_ATTEMPTS]


end Soundness
